import Mathlib

/-!
# Architecture Flow Visualizer — verification of the canvas engine core

A shallow embedding, in Lean 4, of the canvas interaction engine of the
Architecture Flow Visualizer (`src/js/canvas-engine.js`, first engine variant)
together with the command-based edit history of the application shell
(`src/js/app.js`) and the geometry helpers (`src/js/utils.js`).

Modelling conventions:
* JavaScript numbers are modelled as exact rationals (`ℚ`); the claims under
  scrutiny are stated over exact arithmetic.
* A JavaScript `Map` (insertion-ordered, keyed) is modelled as a `List` of
  records together with `mapGet` / `mapSet` / `mapDelete` operations that
  reproduce `Map.get` / `Map.set` / `Map.delete` including iteration order.
* `Math.sqrt` has no exact rational counterpart, so every distance in the
  embedding is carried in *squared* form; a comparison `sqrt d ≤ t` in the
  source (with `d, t ≥ 0`) is embedded as `d ≤ t * t`, which is equivalent
  because squaring is monotone on nonnegatives.
* Fields of the source objects that no modelled operation reads or writes
  (colors, icons, free-form `data` payloads, DOM handles) are omitted.
-/

namespace AFV

/-- A 2-D point, as the `{x, y}` objects used throughout the source. -/
structure Point where
  x : ℚ
  y : ℚ
deriving DecidableEq, Repr

/-- An axis-aligned rectangle `{x, y, width, height}`. -/
structure Rect where
  x : ℚ
  y : ℚ
  width : ℚ
  height : ℚ
deriving DecidableEq, Repr

/-- `Utils.clamp(value, min, max)`: `Math.min(Math.max(value, min), max)`. -/
def clamp (value lo hi : ℚ) : ℚ :=
  min (max value lo) hi

/-- `Utils.pointInRect(point, rect)`: inclusive containment test. -/
def pointInRect (point : Point) (rect : Rect) : Bool :=
  point.x ≥ rect.x && point.x ≤ rect.x + rect.width &&
  point.y ≥ rect.y && point.y ≤ rect.y + rect.height

/-- The viewport state `{x, y, zoom, minZoom, maxZoom}` of the canvas engine. -/
structure Viewport where
  x : ℚ
  y : ℚ
  zoom : ℚ
  minZoom : ℚ
  maxZoom : ℚ
deriving DecidableEq, Repr

/-- The viewport initialised by the `CanvasEngine` constructor:
`{x: 0, y: 0, zoom: 1, minZoom: 0.1, maxZoom: 3}`. -/
def defaultViewport : Viewport :=
  { x := 0, y := 0, zoom := 1, minZoom := 1/10, maxZoom := 3 }

/-- `CanvasEngine.screenToWorld(screenPos)`. -/
def screenToWorld (v : Viewport) (screenPos : Point) : Point :=
  { x := (screenPos.x - v.x) / v.zoom
    y := (screenPos.y - v.y) / v.zoom }

/-- `CanvasEngine.worldToScreen(worldPos)`. -/
def worldToScreen (v : Viewport) (worldPos : Point) : Point :=
  { x := worldPos.x * v.zoom + v.x
    y := worldPos.y * v.zoom + v.y }

/-- The wheel zoom factor `e.deltaY > 0 ? 0.9 : 1.1` of
`CanvasEngine.handleWheel`. -/
def wheelZoomFactor (deltaY : ℚ) : ℚ :=
  if deltaY > 0 then 9/10 else 11/10

/-- The viewport update performed by `CanvasEngine.handleWheel(e)`: the zoom
factor is `0.9` when `e.deltaY > 0` and `1.1` otherwise; the candidate zoom is
clamped to `[minZoom, maxZoom]`; if it differs from the current zoom, the pan
is adjusted towards the mouse position and the zoom replaced, otherwise the
viewport is untouched.  Rendering and the `onZoomChange` callback are
render-side effects outside this model. -/
def handleWheel (v : Viewport) (mousePos : Point) (deltaY : ℚ) : Viewport :=
  let zoomFactor := wheelZoomFactor deltaY
  let newZoom := clamp (v.zoom * zoomFactor) v.minZoom v.maxZoom
  if newZoom ≠ v.zoom then
    let zoomRatio := newZoom / v.zoom
    { v with
      x := mousePos.x - (mousePos.x - v.x) * zoomRatio
      y := mousePos.y - (mousePos.y - v.y) * zoomRatio
      zoom := newZoom }
  else v

theorem Point.ext_xy {p q : Point} (hx : p.x = q.x) (hy : p.y = q.y) : p = q := by
  cases p; cases q; simp_all

/-- The clamped zoom produced by `handleWheel` is nonzero whenever the current
zoom is nonzero, lies within the (possibly unordered-signed) zoom bounds, and
the zoom factor is positive. -/
theorem clamp_zoom_ne_zero (z lo hi f : ℚ) (hlo : lo ≤ z) (hhi : z ≤ hi)
    (hz : z ≠ 0) (hf : 0 < f) : clamp (z * f) lo hi ≠ 0 := by
  unfold clamp
  rcases lt_or_gt_of_ne hz with hneg | hpos
  · have hzf : z * f < 0 := mul_neg_of_neg_of_pos hneg hf
    have hlo' : lo < 0 := lt_of_le_of_lt hlo hneg
    have hmax : max (z * f) lo < 0 := max_lt hzf hlo'
    have : min (max (z * f) lo) hi ≤ max (z * f) lo := min_le_left _ _
    exact ne_of_lt (lt_of_le_of_lt this hmax)
  · have hzf : 0 < z * f := mul_pos hpos hf
    have hmax : 0 < max (z * f) lo := lt_of_lt_of_le hzf (le_max_left _ _)
    have hhi' : 0 < hi := lt_of_lt_of_le hpos hhi
    exact ne_of_gt (lt_min hmax hhi')

/-! ## Scene store: nodes, connections, layers -/

/-- A node record (behaviour-relevant fields of the objects built by
`CanvasEngine.addNode`): id, world-space center, label, owning layer, tag. -/
structure Node where
  id : String
  x : ℚ
  y : ℚ
  label : String
  layer : String
  type : String
deriving DecidableEq, Repr

/-- A connection record (behaviour-relevant fields of the objects built by
`CanvasEngine.addConnection`). -/
structure Connection where
  id : String
  from_ : String
  to_ : String
  label : String
  type : String
deriving DecidableEq, Repr

/-- A layer registry entry (behaviour-relevant fields): id, display name and
visibility flag. -/
structure Layer where
  id : String
  name : String
  visible : Bool
deriving DecidableEq, Repr

/-- `Map.get(id)` on an insertion-ordered list of nodes. -/
def mapGet (nodes : List Node) (id : String) : Option Node :=
  nodes.find? (fun n => n.id = id)

/-- `Map.set(id, node)`: replaces in place when the key exists (the entry keeps
its position in iteration order), appends otherwise. -/
def mapSet (nodes : List Node) (node : Node) : List Node :=
  if nodes.any (fun m => m.id = node.id) then
    nodes.map (fun m => if m.id = node.id then node else m)
  else
    nodes ++ [node]

/-- `Map.delete(id)` on the node map. -/
def mapDelete (nodes : List Node) (id : String) : List Node :=
  nodes.filter (fun n => n.id ≠ id)

/-- `Map.get(id)` on the layer registry. -/
def layerGet (layers : List Layer) (id : String) : Option Layer :=
  layers.find? (fun l => l.id = id)

/-- The node-size configuration `config.nodeSize` (default `120 × 80`). -/
structure NodeSize where
  width : ℚ
  height : ℚ
deriving DecidableEq, Repr

/-- The constructor default `nodeSize: { width: 120, height: 80 }`. -/
def defaultNodeSize : NodeSize := { width := 120, height := 80 }

/-- The state of a `CanvasEngine` instance (first engine variant in
`canvas-engine.js`), restricted to the fields the modelled operations touch. -/
structure Engine where
  nodes : List Node
  connections : List Connection
  layers : List Layer
  selectedNode : Option Node
  hoveredNode : Option Node
  selectedConnection : Option Connection
  hoveredConnection : Option Connection
  highlightedNode : Option Node
  highlightedNodes : List Node
  highlightedConnections : List Connection
  viewport : Viewport
  nodeSize : NodeSize
deriving DecidableEq, Repr

/-- The empty engine state produced by the `CanvasEngine` constructor. -/
def initEngine : Engine :=
  { nodes := [], connections := [], layers := []
    selectedNode := none, hoveredNode := none
    selectedConnection := none, hoveredConnection := none
    highlightedNode := none, highlightedNodes := [], highlightedConnections := []
    viewport := defaultViewport, nodeSize := defaultNodeSize }

/-- `CanvasEngine.isLayerVisible(layerId)`: a missing layer defaults to
visible (the source's separate empty-registry fast path also returns true). -/
def isLayerVisible (layers : List Layer) (layerId : String) : Bool :=
  match layerGet layers layerId with
  | none => true
  | some l => l.visible

/-- The bounding box tested by `CanvasEngine.getNodeAtPosition`:
`width × height` centered at the node's `(x, y)`. -/
def nodeRect (sz : NodeSize) (n : Node) : Rect :=
  { x := n.x - sz.width / 2, y := n.y - sz.height / 2
    width := sz.width, height := sz.height }

/-- `CanvasEngine.getNodeAtPosition(screenPos)`: transform to world space,
then scan `nodes.values()` in insertion order, skipping invisible-layer nodes,
returning the first node whose bounding box contains the world point. -/
def getNodeAtPosition (e : Engine) (screenPos : Point) : Option Node :=
  let worldPos := screenToWorld e.viewport screenPos
  e.nodes.find? (fun n =>
    isLayerVisible e.layers n.layer && pointInRect worldPos (nodeRect e.nodeSize n))

/-- `CanvasEngine.pointToLineDistance(point, lineStart, lineEnd)`, carried in
squared form (the source returns `Math.sqrt` of this value): squared distance
from `point` to the segment `lineStart–lineEnd`, with the projection parameter
clamped to the segment, and the direct squared point distance when the segment
is degenerate (`lenSq === 0`). -/
def pointToLineDistanceSq (point lineStart lineEnd : Point) : ℚ :=
  let a := point.x - lineStart.x
  let b := point.y - lineStart.y
  let c := lineEnd.x - lineStart.x
  let d := lineEnd.y - lineStart.y
  let dot := a * c + b * d
  let lenSq := c * c + d * d
  if lenSq = 0 then
    a * a + b * b
  else
    let param := dot / lenSq
    let xx := if param < 0 then lineStart.x
              else if param > 1 then lineEnd.x
              else lineStart.x + param * c
    let yy := if param < 0 then lineStart.y
              else if param > 1 then lineEnd.y
              else lineStart.y + param * d
    let dx := point.x - xx
    let dy := point.y - yy
    dx * dx + dy * dy

/-- The loop body of `CanvasEngine.getConnectionAtPosition`: scan the
connection list in order, skip connections with an unresolvable endpoint or an
invisible endpoint layer, and return the first whose distance from the world
point to the segment between the endpoint node centers is within the
tolerance.  The source compares `distance <= 8` (pixels); the embedding
compares squared distance with `64 = 8 * 8`. -/
def connectionScan (e : Engine) (worldPos : Point) : List Connection → Option Connection
  | [] => none
  | conn :: rest =>
    match mapGet e.nodes conn.from_, mapGet e.nodes conn.to_ with
    | some fromNode, some toNode =>
      if isLayerVisible e.layers fromNode.layer && isLayerVisible e.layers toNode.layer then
        if pointToLineDistanceSq worldPos ⟨fromNode.x, fromNode.y⟩ ⟨toNode.x, toNode.y⟩ ≤ 64 then
          some conn
        else connectionScan e worldPos rest
      else connectionScan e worldPos rest
    | _, _ => connectionScan e worldPos rest

/-- `CanvasEngine.getConnectionAtPosition(screenPos)` (click tolerance 8 px). -/
def getConnectionAtPosition (e : Engine) (screenPos : Point) : Option Connection :=
  connectionScan e (screenToWorld e.viewport screenPos) e.connections

/-- `CanvasEngine.removeNode(nodeId)` (lines 820–833, first variant): delete
the node, drop every connection incident to `nodeId`, and clear the node
selection when the selected node carried that id. -/
def removeNode (e : Engine) (nodeId : String) : Engine :=
  { e with
    nodes := mapDelete e.nodes nodeId
    connections := e.connections.filter (fun conn =>
      conn.from_ ≠ nodeId && conn.to_ ≠ nodeId)
    selectedNode :=
      match e.selectedNode with
      | some n => if n.id = nodeId then none else some n
      | none => none }

/-- Input to `CanvasEngine.addNode(nodeData)`: each field optional; the source
merges supplied fields over defaults with an object spread, so a supplied
field always wins and defaults apply only to absent fields. -/
structure NodeInput where
  id : Option String := none
  x : Option ℚ := none
  y : Option ℚ := none
  label : Option String := none
  layer : Option String := none
  type : Option String := none
deriving DecidableEq, Repr

/-- `CanvasEngine.addNode(nodeData)`: defaults `x=0, y=0, label="Node",
layer="default", type="default"`, id generated (`freshId`) when absent; the
node is stored with `Map.set` and returned. -/
def addNode (e : Engine) (nodeData : NodeInput) (freshId : String) : Engine × Node :=
  let nodeId := nodeData.id.getD freshId
  let node : Node :=
    { id := nodeId
      x := nodeData.x.getD 0
      y := nodeData.y.getD 0
      label := nodeData.label.getD "Node"
      layer := nodeData.layer.getD "default"
      type := nodeData.type.getD "default" }
  ({ e with nodes := mapSet e.nodes node }, node)

/-- The snapshot `{...node}` taken by `createRemoveNodeCommand`, viewed as an
`addNode` input (all fields present, so `addNode` defaults never fire). -/
def nodeInputOfNode (n : Node) : NodeInput :=
  { id := some n.id, x := some n.x, y := some n.y
    label := some n.label, layer := some n.layer, type := some n.type }

/-- The argument actually passed to `CanvasEngine.addConnection`: JavaScript
is untyped, so a call site may pass the object format the function expects or
(as `createRemoveNodeCommand`'s undo does) a plain string. -/
inductive ConnArg where
  | obj (input : Connection)
  | str (s : String)
deriving DecidableEq, Repr

/-- `CanvasEngine.addConnection(connection)` (lines 410–430, first variant):
when the argument is an object with truthy (non-empty) `from` and `to`, the
normalised connection is appended and returned; otherwise the source logs
`Invalid connection format` and returns `null`, leaving the scene unchanged.
Defaults (`label=""`, `type="default"`, generated id) apply only to absent
fields because the trailing object spread re-overrides with supplied ones;
`ConnArg.obj` carries the already-normalised record. -/
def addConnection (e : Engine) (connection : ConnArg) : Engine × Option Connection :=
  match connection with
  | .obj conn =>
    if conn.from_ ≠ "" && conn.to_ ≠ "" then
      ({ e with connections := e.connections ++ [conn] }, some conn)
    else
      (e, none)
  | .str _ => (e, none)

/-- `CanvasEngine.removeConnection(fromId, toId)` (lines 432–439): filter out
every connection matching `(fromId, toId)` or the reversed pair, and report
whether the list shrank. -/
def removeConnection (e : Engine) (fromId toId : String) : Engine × Bool :=
  let initialLength := e.connections.length
  let conns := e.connections.filter (fun conn =>
    !(conn.from_ = fromId && conn.to_ = toId) &&
    !(conn.from_ = toId && conn.to_ = fromId))
  ({ e with connections := conns }, conns.length < initialLength)

/-- `CanvasEngine.clearHighlights()`. -/
def clearHighlights (e : Engine) : Engine :=
  { e with highlightedNode := none, highlightedNodes := [], highlightedConnections := [] }

/-- `CanvasEngine.clearAll()` (lines 836–842): empty the node map and the
connection list, null the node selection and node hover, and clear the
highlight state. -/
def clearAll (e : Engine) : Engine :=
  clearHighlights
    { e with nodes := [], connections := []
             selectedNode := none, hoveredNode := none }

/-! ## Command history (undo/redo), `ArchitectureApp` in `app.js` -/

/-- The history-relevant state of `ArchitectureApp`: the scene it drives
(`σ`, the canvas engine state in the real program), the command history, the
current index (`-1` initially, so an `Int`), and the capacity bound
(`maxHistorySize = 50` in the constructor).  `α` is the command type. -/
structure App (σ α : Type) where
  scene : σ
  commandHistory : List α
  historyIndex : ℤ
  maxHistorySize : ℕ
deriving DecidableEq, Repr

/-- JavaScript `array.slice(0, e)`: a negative end counts from the end of the
array, a nonnegative end is clamped to the length by `take`. -/
def jsSliceUpTo {α : Type} (l : List α) (e : ℤ) : List α :=
  if e < 0 then l.take (l.length + e).toNat else l.take e.toNat

/-- JavaScript `array.slice(-n)` for a natural `n`: the last `n` elements —
except that `-0` is `0` in JavaScript, so `n = 0` yields the whole array. -/
def jsSliceLast {α : Type} (l : List α) (n : ℕ) : List α :=
  if n = 0 then l else l.drop (l.length - n)

/-- `ArchitectureApp.executeCommand(command)` (lines 1680–1696): run the
command, truncate the history after the current index, append the command,
evict the oldest entries when the capacity is exceeded, and point the index at
the last entry.  `execF` gives each command's `execute()` effect on the
scene. -/
def executeCommand {σ α : Type} (execF : α → σ → σ) (a : App σ α) (c : α) : App σ α :=
  let scene := execF c a.scene
  let h1 := jsSliceUpTo a.commandHistory (a.historyIndex + 1)
  let h2 := h1 ++ [c]
  let h3 := if h2.length > a.maxHistorySize then jsSliceLast h2 a.maxHistorySize else h2
  { a with scene := scene, commandHistory := h3, historyIndex := (h3.length : ℤ) - 1 }

/-- `ArchitectureApp.undo()` (lines 1698–1714): when the index is
nonnegative, run the indexed command's `undo()` and decrement the index
(`true` = a command was undone); otherwise show the `Nothing to undo` toast
and leave the state alone (`false`).  `none` models the `TypeError` JavaScript
would raise if the index pointed past the history — unreachable from the
constructor state. -/
def undo {σ α : Type} (undoF : α → σ → σ) (a : App σ α) : Option (App σ α × Bool) :=
  if 0 ≤ a.historyIndex then
    match a.commandHistory.get? a.historyIndex.toNat with
    | some c => some ({ a with scene := undoF c a.scene, historyIndex := a.historyIndex - 1 }, true)
    | none => none
  else
    some (a, false)

/-- `ArchitectureApp.redo()` (lines 1716–1732): when commands remain beyond
the index, advance the index and run that command's `execute()`; otherwise the
`Nothing to redo` toast, state unchanged. -/
def redo {σ α : Type} (execF : α → σ → σ) (a : App σ α) : Option (App σ α × Bool) :=
  if a.historyIndex < (a.commandHistory.length : ℤ) - 1 then
    match a.commandHistory.get? (a.historyIndex + 1).toNat with
    | some c => some ({ a with scene := execF c a.scene, historyIndex := a.historyIndex + 1 }, true)
    | none => none
  else
    some (a, false)

/-- A command object `{name, execute, undo}` over the engine scene. -/
structure EngineCmd where
  name : String
  exec : Engine → Engine
  undoFn : Engine → Engine

/-- `ArchitectureApp.createRemoveNodeCommand(nodeId)` (lines 1757–1795):
`null` when the node is absent; otherwise snapshots the node (`{...node}`) and
its incident connections at construction time.  `execute()` is
`canvasEngine.removeNode(nodeId)`.  `undo()` re-adds the node snapshot and
then, for each captured connection, performs the source's call
`addConnection(conn.from, conn.to)`: `addConnection` takes a single parameter,
so the second argument is dropped and the argument bound is the *string*
`conn.from` — embedded as `ConnArg.str conn.from_`.  (`layerManager`
statistics updates are display-side effects outside this model.) -/
def createRemoveNodeCommand (e : Engine) (nodeId : String) : Option EngineCmd :=
  match mapGet e.nodes nodeId with
  | none => none
  | some node =>
    let nodeData := node
    let conns := e.connections.filter (fun conn =>
      conn.from_ = nodeId || conn.to_ = nodeId)
    some
      { name := "Remove Node: " ++ nodeData.label
        exec := fun eng => removeNode eng nodeId
        undoFn := fun eng =>
          let eng1 := (addNode eng (nodeInputOfNode nodeData) nodeData.id).1
          conns.foldl (fun acc conn => (addConnection acc (ConnArg.str conn.from_)).1) eng1 }

/-! ## Spec-side definitions

Definitions in this block follow the *specification's words* (spec.md §4.3,
§4.2, §7), to be compared with the embedded source functions above. -/

/-- Spec §4.3 / §7: squared distance from `p` to the segment `a–b`, with the
projection parameter clamped to `[0, 1]`, and the direct squared point
distance when the node centers coincide (no division by zero). -/
def specSegmentDistSq (p a b : Point) : ℚ :=
  if a = b then
    (p.x - a.x) * (p.x - a.x) + (p.y - a.y) * (p.y - a.y)
  else
    let t := clamp
      (((p.x - a.x) * (b.x - a.x) + (p.y - a.y) * (b.y - a.y)) /
        ((b.x - a.x) * (b.x - a.x) + (b.y - a.y) * (b.y - a.y))) 0 1
    let px := a.x + t * (b.x - a.x)
    let py := a.y + t * (b.y - a.y)
    (p.x - px) * (p.x - px) + (p.y - py) * (p.y - py)

/-- Spec §4.3: a connection is hit by the world point when both endpoint
nodes resolve, both lie on visible layers, and the (squared) clamped segment
distance between the point and the segment joining the node centers is within
the (squared) tolerance `8` px. -/
def specConnectionHit (e : Engine) (worldPos : Point) (conn : Connection) : Bool :=
  match mapGet e.nodes conn.from_, mapGet e.nodes conn.to_ with
  | some fromNode, some toNode =>
    isLayerVisible e.layers fromNode.layer && isLayerVisible e.layers toNode.layer &&
    specSegmentDistSq worldPos ⟨fromNode.x, fromNode.y⟩ ⟨toNode.x, toNode.y⟩ ≤ 64
  | _, _ => false

/-- Spec §4.2 (`removeConnection`): a connection matches the endpoint pair
when it equals `(fromId, toId)` or the reversed pair. -/
def matchesPair (conn : Connection) (fromId toId : String) : Bool :=
  (conn.from_ = fromId && conn.to_ = toId) || (conn.from_ = toId && conn.to_ = fromId)

/-! ## Claim theorems -/

/-- `mapGet` misses exactly when no entry carries the key. -/
theorem mapGet_eq_none_iff (l : List Node) (id : String) :
    mapGet l id = none ↔ ∀ n ∈ l, n.id ≠ id := by
  unfold mapGet
  rw [List.find?_eq_none]
  simp

/-- C7, amended: after `removeNode(id)` the node is absent, no connection
references `id`, and the selection is cleared if the selected node carried
`id`; `removeNode` on an id that is absent *and* unreferenced (no dangling
connection names it, the selection does not carry it) changes nothing — and
never raises an error (the embedded operation is total).  The bare claim
fails because dangling connections referencing an absent id are still
removed, and a stale selection carrying the absent id is still cleared. -/
theorem remove_node_cascade (e : Engine) (nodeId : String) :
    mapGet (removeNode e nodeId).nodes nodeId = none
    ∧ (∀ conn ∈ (removeNode e nodeId).connections, conn.from_ ≠ nodeId ∧ conn.to_ ≠ nodeId)
    ∧ (∀ n, e.selectedNode = some n → n.id = nodeId → (removeNode e nodeId).selectedNode = none)
    ∧ (mapGet e.nodes nodeId = none →
        (∀ conn ∈ e.connections, conn.from_ ≠ nodeId ∧ conn.to_ ≠ nodeId) →
        (∀ n, e.selectedNode = some n → n.id ≠ nodeId) →
        removeNode e nodeId = e) := by
  refine ⟨?_, ?_, ?_, ?_⟩
  · show mapGet (mapDelete e.nodes nodeId) nodeId = none
    rw [mapGet_eq_none_iff]
    intro n hn
    unfold mapDelete at hn
    rw [List.mem_filter] at hn
    simpa using hn.2
  · intro conn hconn
    have hmem : conn ∈ e.connections.filter
        (fun conn => conn.from_ ≠ nodeId && conn.to_ ≠ nodeId) := hconn
    rw [List.mem_filter] at hmem
    simpa using hmem.2
  · intro n hn hid
    show (match e.selectedNode with
          | some m => if m.id = nodeId then none else some m
          | none => none) = none
    rw [hn]
    simp [hid]
  · intro habsent hconns hsel
    have hnodes : mapDelete e.nodes nodeId = e.nodes := by
      unfold mapDelete
      apply List.filter_eq_self.mpr
      intro n hn
      simpa using (mapGet_eq_none_iff e.nodes nodeId).mp habsent n hn
    have hcs : e.connections.filter
        (fun conn => conn.from_ ≠ nodeId && conn.to_ ≠ nodeId) = e.connections := by
      apply List.filter_eq_self.mpr
      intro conn hc
      have h := hconns conn hc
      simp [h.1, h.2]
    have hs : (match e.selectedNode with
          | some m => if m.id = nodeId then none else some m
          | none => none) = e.selectedNode := by
      cases hse : e.selectedNode with
      | none => rfl
      | some n => simp [hsel n hse]
    show { e with
           nodes := mapDelete e.nodes nodeId
           connections := e.connections.filter
             (fun conn => conn.from_ ≠ nodeId && conn.to_ ≠ nodeId)
           selectedNode := match e.selectedNode with
             | some m => if m.id = nodeId then none else some m
             | none => none } = e
    rw [hnodes, hcs, hs]

theorem remove_node_cascade_witness : removeNode initEngine "Z" = initEngine :=
  (remove_node_cascade initEngine "Z").2.2.2 rfl
    (by intro conn hc; simp [initEngine] at hc)
    (by intro n hn; simp [initEngine] at hn)

/-- A filtered list is strictly shorter exactly when some element fails the
predicate. -/
theorem length_filter_lt_length_iff {α : Type} (l : List α) (p : α → Bool) :
    (l.filter p).length < l.length ↔ ∃ x ∈ l, p x = false := by
  induction l with
  | nil => simp
  | cons a l ih =>
    cases hpa : p a with
    | true =>
      simp only [List.filter_cons, hpa, if_true, List.length_cons,
        Nat.succ_lt_succ_iff, ih, List.mem_cons]
      constructor
      · rintro ⟨x, hx, hpx⟩; exact ⟨x, Or.inr hx, hpx⟩
      · rintro ⟨x, hx | hx, hpx⟩
        · rw [hx] at hpx; rw [hpa] at hpx; cases hpx
        · exact ⟨x, hx, hpx⟩
    | false =>
      simp only [List.filter_cons, hpa, if_false, List.length_cons]
      constructor
      · intro _; exact ⟨a, List.mem_cons_self a l, hpa⟩
      · intro _
        exact Nat.lt_succ_of_le (List.length_filter_le p l)

/-- C8: Undirected removal — `removeConnection(fromId, toId)` keeps exactly
the connections matching neither `(fromId, toId)` nor the reversed pair
(others are untouched, in order), and returns `true` exactly when at least
one connection was removed. -/
theorem remove_connection_undirected (e : Engine) (fromId toId : String) :
    (removeConnection e fromId toId).1.connections
        = e.connections.filter (fun conn => !matchesPair conn fromId toId)
    ∧ ((removeConnection e fromId toId).2 = true ↔
        ∃ conn ∈ e.connections, matchesPair conn fromId toId = true) := by
  constructor
  · show e.connections.filter _ = e.connections.filter _
    apply List.filter_congr
    intro conn _
    simp [matchesPair]
  · show (decide (_ < e.connections.length)) = true ↔ _
    rw [decide_eq_true_eq, length_filter_lt_length_iff]
    constructor
    · rintro ⟨conn, hc, hp⟩
      refine ⟨conn, hc, ?_⟩
      revert hp
      simp [matchesPair]
      tauto
    · rintro ⟨conn, hc, hp⟩
      refine ⟨conn, hc, ?_⟩
      revert hp
      simp [matchesPair]
      tauto

theorem clamp_of_lt {t : ℚ} (h : t < 0) : clamp t 0 1 = 0 := by
  unfold clamp
  rw [max_eq_right h.le, min_eq_left]
  norm_num

theorem clamp_of_gt {t : ℚ} (h : 1 < t) : clamp t 0 1 = 1 := by
  unfold clamp
  rw [max_eq_left (by linarith), min_eq_right h.le]

theorem clamp_of_mem {t : ℚ} (h0 : 0 ≤ t) (h1 : t ≤ 1) : clamp t 0 1 = t := by
  unfold clamp
  rw [max_eq_left h0, min_eq_left h1]

/-- A sum of two squares of rationals vanishes only when both factors do. -/
theorem sq_add_sq_eq_zero {c d : ℚ} (h : c * c + d * d = 0) : c = 0 ∧ d = 0 := by
  constructor <;> nlinarith [mul_self_nonneg c, mul_self_nonneg d]

/-- The source's segment-distance computation agrees with the
specification's clamped-projection distance (both squared): the `param < 0` /
`param > 1` / interior branches coincide with clamping the projection
parameter to `[0, 1]`, and the `lenSq === 0` guard coincides with the
coincident-centers case. -/
theorem pointToLineDistanceSq_eq_spec (point lineStart lineEnd : Point) :
    pointToLineDistanceSq point lineStart lineEnd
      = specSegmentDistSq point lineStart lineEnd := by
  unfold pointToLineDistanceSq specSegmentDistSq
  by_cases hab : lineStart = lineEnd
  · subst hab
    simp
  · have hlen : (lineEnd.x - lineStart.x) * (lineEnd.x - lineStart.x)
        + (lineEnd.y - lineStart.y) * (lineEnd.y - lineStart.y) ≠ 0 := by
      intro h
      rcases sq_add_sq_eq_zero h with ⟨hx, hy⟩
      exact hab (Point.ext_xy (by linarith) (by linarith)).symm
    rw [if_neg hlen, if_neg hab]
    set param := ((point.x - lineStart.x) * (lineEnd.x - lineStart.x)
        + (point.y - lineStart.y) * (lineEnd.y - lineStart.y)) /
      ((lineEnd.x - lineStart.x) * (lineEnd.x - lineStart.x)
        + (lineEnd.y - lineStart.y) * (lineEnd.y - lineStart.y)) with hparam
    rcases lt_trichotomy param 0 with hp0 | hp0 | hp0
    · simp only [hp0, if_true, clamp_of_lt hp0, lt_asymm hp0, if_false]
      ring
    · simp only [hp0, lt_irrefl, if_false, clamp, max_self, gt_iff_lt]
      norm_num
    · have h0 : ¬ param < 0 := lt_asymm hp0
      by_cases hp1 : param > 1
      · simp only [h0, if_false, hp1, if_true, clamp_of_gt hp1]
        ring
      · simp only [h0, if_false, hp1, if_true,
          clamp_of_mem hp0.le (not_lt.mp hp1)]

/-- The connection scan of `getConnectionAtPosition` is the first match, in
list order, of the spec-side hit predicate. -/
theorem connectionScan_eq_find (e : Engine) (w : Point) (l : List Connection) :
    connectionScan e w l = l.find? (specConnectionHit e w) := by
  induction l with
  | nil => rfl
  | cons conn l ih =>
    rw [List.find?_cons]
    cases hf : mapGet e.nodes conn.from_ with
    | none =>
      have hhit : specConnectionHit e w conn = false := by
        unfold specConnectionHit
        rw [hf]
      rw [hhit]
      unfold connectionScan
      rw [hf]
      exact ih
    | some fromNode =>
      cases ht : mapGet e.nodes conn.to_ with
      | none =>
        have hhit : specConnectionHit e w conn = false := by
          unfold specConnectionHit
          rw [hf, ht]
        rw [hhit]
        unfold connectionScan
        rw [hf, ht]
        exact ih
      | some toNode =>
        have hhit : specConnectionHit e w conn =
            (isLayerVisible e.layers fromNode.layer
              && isLayerVisible e.layers toNode.layer
              && decide (specSegmentDistSq w ⟨fromNode.x, fromNode.y⟩ ⟨toNode.x, toNode.y⟩ ≤ 64)) := by
          unfold specConnectionHit
          rw [hf, ht]
        have hl : connectionScan e w (conn :: l)
            = (if (isLayerVisible e.layers fromNode.layer
                    && isLayerVisible e.layers toNode.layer) = true then
                 (if pointToLineDistanceSq w ⟨fromNode.x, fromNode.y⟩
                      ⟨toNode.x, toNode.y⟩ ≤ 64 then
                    some conn
                  else connectionScan e w l)
               else connectionScan e w l) := by
          conv_lhs => unfold connectionScan
          rw [hf, ht]
        rw [hl, hhit, pointToLineDistanceSq_eq_spec]
        cases hv : (isLayerVisible e.layers fromNode.layer
            && isLayerVisible e.layers toNode.layer) with
        | false => simp [ih]
        | true =>
          by_cases hd : specSegmentDistSq w ⟨fromNode.x, fromNode.y⟩
              ⟨toNode.x, toNode.y⟩ ≤ 64
          · simp [hd]
          · simp [hd, ih]

/-- C9: Connection hit-testing — `getConnectionAtPosition` returns the first
connection, in list order, with both endpoint nodes present and on visible
layers whose clamped-segment distance from the transformed world point to
the segment between the node centers is within the 8-pixel tolerance
(degenerate segments use the direct point distance, with no division by
zero), and `none` when no such connection exists. -/
theorem connection_hit_test_spec (e : Engine) (screenPos : Point) :
    getConnectionAtPosition e screenPos
      = e.connections.find? (specConnectionHit e (screenToWorld e.viewport screenPos)) :=
  connectionScan_eq_find e (screenToWorld e.viewport screenPos) e.connections

/-- The one real node of the C7 counterexample scene. -/
def c7nodeB : Node :=
  { id := "B", x := 10, y := 20, label := "B", layer := "default", type := "default" }

/-- A stale node reference with an id absent from the node map. -/
def c7staleC : Node :=
  { id := "C", x := 0, y := 0, label := "C", layer := "default", type := "default" }

/-- A dangling connection: its `from` endpoint `"C"` is not in the node map
(tolerated by the data model, spec §3). -/
def c7conn : Connection :=
  { id := "k", from_ := "C", to_ := "B", label := "", type := "default" }

/-- The C7 counterexample scene: node `"C"` is absent, yet a dangling
connection references it and the (stale) selection carries it. -/
def c7engine : Engine :=
  { initEngine with
    nodes := [c7nodeB], connections := [c7conn], selectedNode := some c7staleC }

/-- C7, counterexample: `removeNode` on the absent id `"C"` is *not* a no-op:
it deletes the dangling connection referencing `"C"` and clears the stale
selection carrying `"C"`, so the scene changes. -/
theorem remove_node_absent_counterexample :
    mapGet c7engine.nodes "C" = none
    ∧ c7engine.connections = [c7conn]
    ∧ (removeNode c7engine "C").connections = []
    ∧ c7engine.selectedNode = some c7staleC
    ∧ (removeNode c7engine "C").selectedNode = none
    ∧ removeNode c7engine "C" ≠ c7engine := by
  refine ⟨rfl, rfl, rfl, rfl, rfl, fun h => ?_⟩
  have hc := congrArg Engine.connections h
  rw [show (removeNode c7engine "C").connections = [] from rfl,
      show c7engine.connections = [c7conn] from rfl] at hc
  exact List.cons_ne_nil _ _ hc.symm

/-- C4: Inverse transform round-trip — for every viewport with nonzero zoom
and every screen point `p`, `worldToScreen(screenToWorld(p)) = p`, exactly,
over exact arithmetic. -/
theorem transform_roundtrip (v : Viewport) (p : Point) (h : v.zoom ≠ 0) :
    worldToScreen v (screenToWorld v p) = p := by
  apply Point.ext_xy <;>
    simp only [worldToScreen, screenToWorld] <;>
    field_simp

theorem transform_roundtrip_witness :
    worldToScreen defaultViewport (screenToWorld defaultViewport ⟨7, 11⟩) = ⟨7, 11⟩ :=
  transform_roundtrip defaultViewport ⟨7, 11⟩ (by norm_num [defaultViewport])

/-- C3: Pivot-preserving wheel zoom — for every viewport whose zoom lies in
`[minZoom, maxZoom]` and is nonzero, every screen point and every wheel
delta: the new zoom is the old zoom times the wheel factor clamped to the
zoom bounds; the world point under the cursor (`screenToWorld p`) is
unchanged; and when the clamped zoom equals the current zoom the viewport is
left entirely unchanged. -/
theorem wheel_zoom_pivot_preserving (v : Viewport) (p : Point) (deltaY : ℚ)
    (hlo : v.minZoom ≤ v.zoom) (hhi : v.zoom ≤ v.maxZoom) (hz : v.zoom ≠ 0) :
    (handleWheel v p deltaY).zoom
        = clamp (v.zoom * wheelZoomFactor deltaY) v.minZoom v.maxZoom
    ∧ screenToWorld (handleWheel v p deltaY) p = screenToWorld v p
    ∧ (clamp (v.zoom * wheelZoomFactor deltaY) v.minZoom v.maxZoom = v.zoom →
        handleWheel v p deltaY = v) := by
  have hfpos : 0 < wheelZoomFactor deltaY := by
    unfold wheelZoomFactor; split <;> norm_num
  have hnz0 : clamp (v.zoom * wheelZoomFactor deltaY) v.minZoom v.maxZoom ≠ 0 :=
    clamp_zoom_ne_zero v.zoom v.minZoom v.maxZoom _ hlo hhi hz hfpos
  by_cases he : clamp (v.zoom * wheelZoomFactor deltaY) v.minZoom v.maxZoom = v.zoom
  · have hw : handleWheel v p deltaY = v := by
      simp only [handleWheel, he, ne_eq, not_true_eq_false, if_false]
    exact ⟨by rw [hw, he], by rw [hw], fun _ => hw⟩
  · have hw : handleWheel v p deltaY =
        { v with
          x := p.x - (p.x - v.x) *
            (clamp (v.zoom * wheelZoomFactor deltaY) v.minZoom v.maxZoom / v.zoom)
          y := p.y - (p.y - v.y) *
            (clamp (v.zoom * wheelZoomFactor deltaY) v.minZoom v.maxZoom / v.zoom)
          zoom := clamp (v.zoom * wheelZoomFactor deltaY) v.minZoom v.maxZoom } := by
      simp only [handleWheel, he, ne_eq, not_false_eq_true, if_true]
    refine ⟨by rw [hw], ?_, fun hcon => absurd hcon he⟩
    rw [hw]
    apply Point.ext_xy <;>
      simp only [screenToWorld] <;>
      field_simp <;>
      ring

/-- C1, amended: for a scene whose node list holds two visible overlapping
nodes, `getNodeAtPosition` at a screen point inside both bounding boxes
returns the *earliest-added* of the two (the `Map` iterates in insertion
order and the scan returns the first hit), not the most-recently-added. -/
theorem hit_test_insertion_order (e : Engine) (a b : Node) (p : Point)
    (hnodes : e.nodes = [a, b])
    (hva : isLayerVisible e.layers a.layer = true)
    (hpa : pointInRect (screenToWorld e.viewport p) (nodeRect e.nodeSize a) = true)
    (hvb : isLayerVisible e.layers b.layer = true)
    (hpb : pointInRect (screenToWorld e.viewport p) (nodeRect e.nodeSize b) = true) :
    getNodeAtPosition e p = some a := by
  unfold getNodeAtPosition
  rw [hnodes]
  simp [List.find?_cons, hva, hpa]

/-- The node added first in the C1 scene. -/
def c1nodeA : Node :=
  { id := "A", x := 0, y := 0, label := "first", layer := "default", type := "default" }

/-- The node added second in the C1 scene, at the same position as the
first. -/
def c1nodeB : Node :=
  { id := "B", x := 0, y := 0, label := "second", layer := "default", type := "default" }

/-- The C1 scene: two visible nodes at the same position, `c1nodeA` inserted
before `c1nodeB`. -/
def c1engine : Engine :=
  { initEngine with nodes := [c1nodeA, c1nodeB] }

/-- C1, counterexample: in a scene with two visible overlapping nodes at the
same position, probed at a screen point inside both bounding boxes,
`getNodeAtPosition` returns the first-added node `c1nodeA`, not the
most-recently-added `c1nodeB`. -/
theorem hit_test_precedence_counterexample :
    c1engine.nodes = [c1nodeA, c1nodeB]
    ∧ isLayerVisible c1engine.layers c1nodeB.layer = true
    ∧ pointInRect (screenToWorld c1engine.viewport ⟨0, 0⟩) (nodeRect c1engine.nodeSize c1nodeB) = true
    ∧ getNodeAtPosition c1engine ⟨0, 0⟩ ≠ some c1nodeB
    ∧ getNodeAtPosition c1engine ⟨0, 0⟩ = some c1nodeA := by
  have hworld : screenToWorld c1engine.viewport ⟨0, 0⟩ = ⟨0, 0⟩ := by
    simp [c1engine, initEngine, defaultViewport, screenToWorld]
  have hrect : pointInRect (⟨0, 0⟩ : Point) (nodeRect c1engine.nodeSize c1nodeA) = true := by
    simp [c1engine, initEngine, defaultNodeSize, nodeRect, pointInRect, c1nodeA]
    norm_num
  have hrectB : pointInRect (⟨0, 0⟩ : Point) (nodeRect c1engine.nodeSize c1nodeB) = true := by
    simp [c1engine, initEngine, defaultNodeSize, nodeRect, pointInRect, c1nodeB]
    norm_num
  have hfound : getNodeAtPosition c1engine ⟨0, 0⟩ = some c1nodeA := by
    unfold getNodeAtPosition
    rw [show c1engine.nodes = [c1nodeA, c1nodeB] from rfl, hworld]
    simp [List.find?_cons, hrect, show isLayerVisible c1engine.layers c1nodeA.layer = true from rfl]
  refine ⟨rfl, rfl, by rw [hworld]; exact hrectB, ?_, hfound⟩
  rw [hfound]
  simp [c1nodeA, c1nodeB]

theorem hit_test_insertion_order_witness :
    getNodeAtPosition c1engine ⟨0, 0⟩ = some c1nodeA := by
  have hworld : screenToWorld c1engine.viewport ⟨0, 0⟩ = ⟨0, 0⟩ := by
    simp [c1engine, initEngine, defaultViewport, screenToWorld]
  apply hit_test_insertion_order c1engine c1nodeA c1nodeB ⟨0, 0⟩ rfl rfl
  · rw [hworld]
    simp [c1engine, initEngine, defaultNodeSize, nodeRect, pointInRect, c1nodeA]
    norm_num
  · rfl
  · rw [hworld]
    simp [c1engine, initEngine, defaultNodeSize, nodeRect, pointInRect, c1nodeB]
    norm_num

theorem wheel_zoom_pivot_witness :
    (handleWheel defaultViewport ⟨100, 50⟩ 1).zoom
      = clamp (defaultViewport.zoom * wheelZoomFactor 1)
          defaultViewport.minZoom defaultViewport.maxZoom :=
  (wheel_zoom_pivot_preserving defaultViewport ⟨100, 50⟩ 1
    (by norm_num [defaultViewport]) (by norm_num [defaultViewport])
    (by norm_num [defaultViewport])).1

/-- C10, amended: `clearAll()` empties the node map, the connection list, the
*node* selection and *node* hover, and all highlight state, and leaves the
layer registry, the viewport (pan, zoom and zoom bounds), the node-size
configuration — and also the *connection* selection and *connection* hover —
unchanged. -/
theorem clear_all_frame (e : Engine) :
    (clearAll e).nodes = []
    ∧ (clearAll e).connections = []
    ∧ (clearAll e).selectedNode = none
    ∧ (clearAll e).hoveredNode = none
    ∧ (clearAll e).highlightedNode = none
    ∧ (clearAll e).highlightedNodes = []
    ∧ (clearAll e).highlightedConnections = []
    ∧ (clearAll e).layers = e.layers
    ∧ (clearAll e).viewport = e.viewport
    ∧ (clearAll e).nodeSize = e.nodeSize
    ∧ (clearAll e).selectedConnection = e.selectedConnection
    ∧ (clearAll e).hoveredConnection = e.hoveredConnection :=
  ⟨rfl, rfl, rfl, rfl, rfl, rfl, rfl, rfl, rfl, rfl, rfl, rfl⟩

/-- The connection whose selection survives `clearAll` in the C10
counterexample. -/
def c10conn : Connection :=
  { id := "k", from_ := "A", to_ := "B", label := "", type := "default" }

/-- The C10 counterexample scene: a connection is currently selected and
hovered. -/
def c10engine : Engine :=
  { initEngine with
    connections := [c10conn]
    selectedConnection := some c10conn
    hoveredConnection := some c10conn }

/-- C10, counterexample: `clearAll` does *not* empty all selection and hover
state — the connection selection and connection hover survive (pointing at a
connection that is no longer in the scene). -/
theorem clear_all_counterexample :
    (clearAll c10engine).connections = []
    ∧ (clearAll c10engine).selectedConnection = some c10conn
    ∧ (clearAll c10engine).hoveredConnection = some c10conn :=
  ⟨rfl, rfl, rfl⟩

/-- First node of the C2 scene. -/
def c2nodeA : Node :=
  { id := "A", x := 0, y := 0, label := "A", layer := "default", type := "default" }

/-- Second node of the C2 scene. -/
def c2nodeB : Node :=
  { id := "B", x := 200, y := 0, label := "B", layer := "default", type := "default" }

/-- The connection incident to node `"A"` in the C2 scene. -/
def c2conn : Connection :=
  { id := "k1", from_ := "A", to_ := "B", label := "calls", type := "default" }

/-- The C2 scene: nodes `A`, `B` and the connection `A → B`. -/
def c2engine : Engine :=
  { initEngine with nodes := [c2nodeA, c2nodeB], connections := [c2conn] }

/-- C2, code-bug evidence: for the scene with nodes `A`, `B` and connection
`A → B`, the command built by `createRemoveNodeCommand("A")`, after
`execute()` then `undo()`, restores node `A` but *loses* the incident
connection: `undo()` invokes `addConnection(conn.from, conn.to)`, so
`addConnection` receives the string `"A"` instead of a connection object,
rejects it as an invalid format and restores nothing.  The resulting
connection list is empty although the scene held `[c2conn]` before the
command ran. -/
theorem remove_node_undo_drops_connections :
    c2engine.connections = [c2conn]
    ∧ (createRemoveNodeCommand c2engine "A").map (fun cmd =>
        let after := cmd.undoFn (cmd.exec c2engine)
        (mapGet after.nodes "A", after.connections))
      = some (some c2nodeA, []) :=
  ⟨rfl, rfl⟩

/-- A command for the history scenarios: `execute()` pushes its tag onto the
scene list. -/
def pushCmd : ℕ → List ℕ → List ℕ := fun c s => c :: s

/-- The matching `undo()`: pops the most recent tag. -/
def popCmd : ℕ → List ℕ → List ℕ := fun _ s => s.tail

/-- `executeCommand` preserves the capacity bound. -/
theorem executeCommand_length_le {σ α : Type} (execF : α → σ → σ) (a : App σ α)
    (c : α) (hmax : 1 ≤ a.maxHistorySize) :
    (executeCommand execF a c).commandHistory.length ≤ a.maxHistorySize := by
  simp only [executeCommand]
  by_cases h : (jsSliceUpTo a.commandHistory (a.historyIndex + 1) ++ [c]).length
      > a.maxHistorySize
  · rw [if_pos h]
    unfold jsSliceLast
    rw [if_neg (by omega : ¬ a.maxHistorySize = 0), List.length_drop]
    omega
  · rw [if_neg h]
    omega

/-- The history state reached by the fresh `ArchitectureApp`
(`maxHistorySize = 50`), modelled over list scenes and tag commands. -/
def c5app0 : App (List ℕ) ℕ :=
  { scene := [], commandHistory := [], historyIndex := -1, maxHistorySize := 50 }

/-- The C5 scenario after executing commands `1, 2, 3` and undoing twice. -/
def c5afterUndos : Option (App (List ℕ) ℕ) :=
  (undo popCmd (executeCommand pushCmd
      (executeCommand pushCmd (executeCommand pushCmd c5app0 1) 2) 3)).bind
    (fun x => (undo popCmd x.1).map (fun y => y.1))

/-- The C5 scenario after additionally executing command `4`. -/
def c5final : Option (App (List ℕ) ℕ) :=
  c5afterUndos.map (fun a => executeCommand pushCmd a 4)

/-- C5: History truncation — executing a command (when capacity is not
exceeded) discards every command after the current index and appends the new
one; in the scenario execute `1, 2, 3`, undo twice, execute `4`, the history
is exactly `[1, 4]` with the index at its head, and `redo` is a reported
no-op (nothing beyond the index remains replayable). -/
theorem history_truncation :
    (∀ (σ α : Type) (execF : α → σ → σ) (a : App σ α) (c : α),
        (jsSliceUpTo a.commandHistory (a.historyIndex + 1)).length + 1 ≤ a.maxHistorySize →
        (executeCommand execF a c).commandHistory
          = jsSliceUpTo a.commandHistory (a.historyIndex + 1) ++ [c])
    ∧ c5final.map (fun a => (a.commandHistory, a.historyIndex)) = some ([1, 4], 1)
    ∧ c5final.bind (redo pushCmd) = c5final.map (fun a => (a, false)) := by
  refine ⟨?_, rfl, rfl⟩
  intro σ α execF a c h
  have hlen : ¬ ((jsSliceUpTo a.commandHistory (a.historyIndex + 1) ++ [c]).length
      > a.maxHistorySize) := by
    rw [List.length_append]
    simp only [List.length_singleton]
    omega
  simp only [executeCommand]
  rw [if_neg hlen]

theorem history_truncation_witness :
    (executeCommand pushCmd c5app0 7).commandHistory
      = jsSliceUpTo c5app0.commandHistory (c5app0.historyIndex + 1) ++ [7] :=
  history_truncation.1 (List ℕ) ℕ pushCmd c5app0 7 (by decide)

/-- The fresh history with `maxHistorySize = 2` of the C6 scenario. -/
def c6app0 : App (List ℕ) ℕ :=
  { scene := [], commandHistory := [], historyIndex := -1, maxHistorySize := 2 }

/-- The C6 scenario after executing commands `1, 2, 3` at capacity 2. -/
def c6a3 : App (List ℕ) ℕ :=
  executeCommand pushCmd (executeCommand pushCmd (executeCommand pushCmd c6app0 1) 2) 3

/-- The C6 scenario after additionally undoing twice. -/
def c6u2 : Option (App (List ℕ) ℕ) :=
  (undo popCmd c6a3).bind (fun x => (undo popCmd x.1).map (fun y => y.1))

/-- C6: Bounded history with graceful underflow — the history length never
exceeds `maxHistorySize` (≥ 1) along any sequence of executed commands; each
execution keeps a suffix of the truncate-and-append history (oldest entries
evicted first) and points the index at the last entry (the most recent
entries stay undoable); `undo` with a negative index is a reported no-op
(`false`, state unchanged, no error); and with `maxHistorySize = 2`,
executing three commands leaves exactly the 2 entries `[2, 3]`, and after
undoing twice a third `undo` returns the same state with the no-op report. -/
theorem history_bounded :
    (∀ (σ α : Type) (execF : α → σ → σ) (cs : List α) (a : App σ α),
        1 ≤ a.maxHistorySize → a.commandHistory.length ≤ a.maxHistorySize →
        (cs.foldl (executeCommand execF) a).commandHistory.length ≤ a.maxHistorySize)
    ∧ (∀ (σ α : Type) (execF : α → σ → σ) (a : App σ α) (c : α),
        List.IsSuffix (executeCommand execF a c).commandHistory
            (jsSliceUpTo a.commandHistory (a.historyIndex + 1) ++ [c])
        ∧ (executeCommand execF a c).historyIndex
            = ((executeCommand execF a c).commandHistory.length : ℤ) - 1)
    ∧ (∀ (σ α : Type) (undoF : α → σ → σ) (a : App σ α),
        a.historyIndex < 0 → undo undoF a = some (a, false))
    ∧ c6a3.commandHistory = [2, 3]
    ∧ c6u2.map (fun a => (a.commandHistory, a.historyIndex)) = some ([2, 3], -1)
    ∧ c6u2.bind (undo popCmd) = c6u2.map (fun a => (a, false)) := by
  refine ⟨?_, ?_, ?_, rfl, rfl, rfl⟩
  · intro σ α execF cs
    induction cs with
    | nil => intro a _ h2; simpa using h2
    | cons c cs ih =>
      intro a h1 h2
      have hstep := executeCommand_length_le execF a c h1
      have hmax : (executeCommand execF a c).maxHistorySize = a.maxHistorySize := rfl
      have := ih (executeCommand execF a c) (by rw [hmax]; exact h1) (by rw [hmax]; exact hstep)
      rw [hmax] at this
      simpa [List.foldl_cons] using this
  · intro σ α execF a c
    constructor
    · simp only [executeCommand]
      by_cases h : (jsSliceUpTo a.commandHistory (a.historyIndex + 1) ++ [c]).length
          > a.maxHistorySize
      · rw [if_pos h]
        unfold jsSliceLast
        by_cases h0 : a.maxHistorySize = 0
        · rw [if_pos h0]
        · rw [if_neg h0]
          exact List.drop_suffix _ _
      · rw [if_neg h]
    · rfl
  · intro σ α undoF a h
    unfold undo
    rw [if_neg (not_le.mpr h)]

theorem history_bounded_witness :
    (([1, 2, 3] : List ℕ).foldl (executeCommand pushCmd) c6app0).commandHistory.length
      ≤ c6app0.maxHistorySize :=
  history_bounded.1 (List ℕ) ℕ pushCmd [1, 2, 3] c6app0 (by decide) (by decide)

end AFV
